import Mathlib

/-!
Verification of the quad-pi attitude-estimation core against its
natural-language specification.

The definitions below are a shallow embedding of `src/quad_pi/i2c.py` and
`src/quad_pi/control.py`.  Python integers are modelled as `ℤ`/`ℕ`, Python
floats as `ℚ` (device/codec layer, where every number the code manipulates is
rational) or `ℝ` (AHRS layer, where `atan2`/`sqrt` occur).  A Python function
that can raise an exception is modelled as returning `Option` (`none` = the
exception propagates; the state reached before the exception is not recorded).
The i2c bus (`smbus.SMBus`, an injected collaborator outside the repository)
is modelled as an abstract `Bus` interface with two instantiations: a stream
bus that feeds an arbitrary byte sequence to reads and logs writes, and a
register-file bus in which a read returns the last value written (ideal
register hardware, used for the get-after-set properties).
-/

namespace QuadPi

/-- Python 2 `round` on a real number: round half away from zero
(`round(-0.5) == -1.0`, as the repository's own test
`test_GIVEN_floats_WHEN_make_from_decimal_THEN_correctly_rounded_binary_representation`
requires).  `int(round(x))` in the source is this function. -/
def pyRound (q : ℚ) : ℤ :=
  if 0 ≤ q then ⌊q + 1 / 2⌋ else -⌊-q + 1 / 2⌋

/-- TwosComplement value object (`i2c.py` lines 4-95): the unsigned binary
pattern `_bin_val` together with the width `_bits`. -/
structure TwosComplement where
  bin_val : ℕ
  bits : ℕ
deriving DecidableEq

namespace TwosComplement

/-- Constructor `TwosComplement(lsb)`: one byte, width 8. -/
def ofByte (lsb : ℕ) : TwosComplement := ⟨lsb, 8⟩

/-- Constructor `TwosComplement(lsb, msb)`: `(msb << 8) + lsb`, width 16. -/
def ofBytes (lsb msb : ℕ) : TwosComplement := ⟨(msb <<< 8) + lsb, 16⟩

/-- Method `as_dec` (`i2c.py` lines 28-38): `sign_bit = bin_val >> (bits - 1)`;
if it is set, `data_bits = bin_val - 2**bits` and the result is
`-(~ data_bits + 1)`, where Python's `~x` on integers is `-x - 1`. -/
def as_dec (t : TwosComplement) : ℤ :=
  if t.bin_val >>> (t.bits - 1) ≠ 0 then
    -((-((t.bin_val : ℤ) - 2 ^ t.bits) - 1) + 1)
  else
    (t.bin_val : ℤ)

/-- Method `as_bin` (`i2c.py` lines 40-44). -/
def as_bin (t : TwosComplement) : ℕ := t.bin_val

/-- Classmethod `_split_lsb_msb` (`i2c.py` lines 46-54): returns `(lsb, msb)`. -/
def split_lsb_msb (binary : ℕ) : ℕ × ℕ :=
  let msb := binary >>> 8
  let lsb := binary - (msb <<< 8)
  (lsb, msb)

/-- Classmethod `_negative_to_binary` (`i2c.py` lines 56-58):
`~abs(decimal) + (2**bits + 1)`, with Python's `~x = -x - 1`. -/
def negative_to_binary (decimal : ℤ) (bits : ℕ) : ℤ :=
  (-(decimal.natAbs : ℤ) - 1) + (2 ^ bits + 1)

/-- Branch structure of classmethod `from_decimal` (`i2c.py` lines 71-95),
applied to `d = int(round(decimal))`.  `none` models the `ValueError` raised
for a decimal outside the representable range. -/
def from_rounded (d : ℤ) : Option TwosComplement :=
  if 0 ≤ d then
    if d < 128 then
      some (ofByte d.toNat)
    else if d < 32768 then
      let p := split_lsb_msb d.toNat
      some (ofBytes p.1 p.2)
    else
      none
  else
    if -128 ≤ d then
      some (ofByte (negative_to_binary d 8).toNat)
    else if -32768 ≤ d then
      let p := split_lsb_msb (negative_to_binary d 16).toNat
      some (ofBytes p.1 p.2)
    else
      none

/-- Classmethod `from_decimal` (`i2c.py` lines 60-95): first
`decimal = int(round(decimal))` (Python 2 rounding, half away from zero),
then the width selection and encoding of `from_rounded`. -/
def from_decimal (decimal : ℚ) : Option TwosComplement :=
  from_rounded (pyRound decimal)

end TwosComplement

section RoundLemmas

lemma pyRound_intCast (d : ℤ) : pyRound (d : ℚ) = d := by
  unfold pyRound
  by_cases h : (0 : ℚ) ≤ (d : ℚ)
  · rw [if_pos h, Int.floor_int_add]
    norm_num
  · rw [if_neg h, show -((d : ℚ)) = (((-d : ℤ) : ℚ)) by push_cast; ring,
      Int.floor_int_add]
    norm_num

end RoundLemmas

namespace TwosComplement

lemma split_join (m : ℕ) :
    ((split_lsb_msb m).2 <<< 8) + (split_lsb_msb m).1 = m := by
  simp only [split_lsb_msb, Nat.shiftLeft_eq, Nat.shiftRight_eq_div_pow]
  have h : m / 2 ^ 8 * 2 ^ 8 ≤ m := Nat.div_mul_le_self m (2 ^ 8)
  omega

/-- Decoding a width-8 pattern below 128 gives the pattern itself. -/
lemma as_dec_ofByte_pos (b : ℕ) (h : b < 128) : (ofByte b).as_dec = (b : ℤ) := by
  unfold ofByte as_dec
  have hs : ¬ b >>> (8 - 1) ≠ 0 := by
    rw [Nat.shiftRight_eq_div_pow]
    norm_num
    omega
  rw [if_neg hs]

/-- Decoding a width-8 pattern at or above 128 gives the pattern minus 256. -/
lemma as_dec_ofByte_neg (b : ℕ) (h : 128 ≤ b) : (ofByte b).as_dec = (b : ℤ) - 256 := by
  unfold ofByte as_dec
  have hs : b >>> (8 - 1) ≠ 0 := by
    rw [Nat.shiftRight_eq_div_pow]
    norm_num
    omega
  rw [if_pos hs]
  push_cast
  ring

/-- Decoding a width-16 pattern below 32768 gives the pattern itself. -/
lemma as_dec_mk16_pos (b : ℕ) (h : b < 32768) :
    (TwosComplement.mk b 16).as_dec = (b : ℤ) := by
  unfold as_dec
  have hs : ¬ (TwosComplement.mk b 16).bin_val >>> (16 - 1) ≠ 0 := by
    show ¬ b >>> (16 - 1) ≠ 0
    rw [Nat.shiftRight_eq_div_pow]
    norm_num
    omega
  rw [if_neg hs]

/-- Decoding a width-16 pattern at or above 32768 gives the pattern minus 65536. -/
lemma as_dec_mk16_neg (b : ℕ) (h : 32768 ≤ b) :
    (TwosComplement.mk b 16).as_dec = (b : ℤ) - 65536 := by
  unfold as_dec
  have hs : (TwosComplement.mk b 16).bin_val >>> (16 - 1) ≠ 0 := by
    show b >>> (16 - 1) ≠ 0
    rw [Nat.shiftRight_eq_div_pow]
    norm_num
    omega
  rw [if_pos hs]
  push_cast
  ring

lemma ofBytes_bin (lsb msb : ℕ) : (ofBytes lsb msb).bin_val = (msb <<< 8) + lsb := rfl

end TwosComplement

/-- C1: for every integer d in [-32768, 32767], decoding the two's-complement
encoding of d returns d: `TwosComplement.from_decimal(d).as_dec() == d`. -/
theorem from_decimal_as_dec_roundtrip (d : ℤ) (h1 : -32768 ≤ d) (h2 : d ≤ 32767) :
    (TwosComplement.from_decimal (d : ℚ)).map TwosComplement.as_dec = some d := by
  unfold TwosComplement.from_decimal TwosComplement.from_rounded
  rw [pyRound_intCast]
  by_cases hnn : 0 ≤ d
  · rw [if_pos hnn]
    by_cases h8 : d < 128
    · rw [if_pos h8]
      simp only [Option.map_some']
      rw [TwosComplement.as_dec_ofByte_pos d.toNat (by omega)]
      congr 1
      omega
    · rw [if_neg h8, if_pos (by omega : d < 32768)]
      simp only [Option.map_some']
      have hjoin := TwosComplement.split_join d.toNat
      have hb : (TwosComplement.ofBytes (TwosComplement.split_lsb_msb d.toNat).1
          (TwosComplement.split_lsb_msb d.toNat).2) = TwosComplement.mk d.toNat 16 := by
        unfold TwosComplement.ofBytes
        rw [hjoin]
      rw [hb, TwosComplement.as_dec_mk16_pos d.toNat (by omega)]
      congr 1
      omega
  · rw [if_neg hnn]
    have hneg : d < 0 := by omega
    by_cases h8 : -128 ≤ d
    · rw [if_pos h8]
      simp only [Option.map_some']
      have habs : (d.natAbs : ℤ) = -d := by omega
      have hbin : TwosComplement.negative_to_binary d 8 = 256 + d := by
        unfold TwosComplement.negative_to_binary
        rw [habs]
        ring
      have htn : ((TwosComplement.negative_to_binary d 8).toNat : ℤ) = 256 + d := by
        rw [hbin]; omega
      rw [TwosComplement.as_dec_ofByte_neg _ (by omega)]
      congr 1
      omega
    · rw [if_neg h8, if_pos (by omega : -32768 ≤ d)]
      simp only [Option.map_some']
      have habs : (d.natAbs : ℤ) = -d := by omega
      have hbin : TwosComplement.negative_to_binary d 16 = 65536 + d := by
        unfold TwosComplement.negative_to_binary
        rw [habs]
        ring
      have htn : ((TwosComplement.negative_to_binary d 16).toNat : ℤ) = 65536 + d := by
        rw [hbin]; omega
      have hjoin := TwosComplement.split_join (TwosComplement.negative_to_binary d 16).toNat
      have hb : (TwosComplement.ofBytes
          (TwosComplement.split_lsb_msb (TwosComplement.negative_to_binary d 16).toNat).1
          (TwosComplement.split_lsb_msb (TwosComplement.negative_to_binary d 16).toNat).2)
          = TwosComplement.mk (TwosComplement.negative_to_binary d 16).toNat 16 := by
        unfold TwosComplement.ofBytes
        rw [hjoin]
      rw [hb, TwosComplement.as_dec_mk16_neg _ (by omega)]
      congr 1
      omega

/-- Witness for C1: the round-trip law at the concrete input d = -5. -/
theorem from_decimal_as_dec_roundtrip_witness :
    (TwosComplement.from_decimal ((-5 : ℤ) : ℚ)).map TwosComplement.as_dec = some (-5) :=
  from_decimal_as_dec_roundtrip (-5) (by norm_num) (by norm_num)

/-- Byte value handed to `I2CDevice.__setitem__`: the source passes either a
Python int or a TwosComplement instance. -/
inductive ByteData where
  | int (n : ℤ)
  | twos (t : TwosComplement)
deriving DecidableEq

/-- Python `int(...)` as applied by `I2CDevice.__setitem__` to its argument:
an int is returned unchanged, and a TwosComplement converts through `__int__`
(`i2c.py` lines 22-26), which returns `as_bin()`. -/
def pyIntOf : ByteData → ℤ
  | .int n => n
  | .twos t => (t.as_bin : ℤ)

/-- Abstract byte-level bus transport: the injected `smbus.SMBus` collaborator,
which lives outside the repository.  `read s dev reg` returns a byte and the
next bus state; `write s dev reg v` transmits `v`. -/
structure Bus (σ : Type) where
  read : σ → ℕ → ℕ → ℕ × σ
  write : σ → ℕ → ℕ → ℤ → σ

/-- State of the stream bus: the i-th read (of any register) returns
`input i`, and every write is logged in order. -/
structure SMBus where
  input : ℕ → ℕ
  count : ℕ
  writes : List (ℕ × ℕ × ℤ)

/-- Stream bus: models arbitrary hardware behaviour, exactly like the
repository's mock-based tests drive reads with a `side_effect` sequence. -/
def streamBus : Bus SMBus where
  read := fun s _ _ => (s.input s.count, { s with count := s.count + 1 })
  write := fun s dev reg v => { s with writes := s.writes ++ [(dev, reg, v)] }

/-- Register file: one byte per (device address, register address). -/
abbrev RegFile := ℕ → ℕ → ℕ

/-- Register-file bus: ideal register hardware, where a read returns the value
last written at that (device, register) address. -/
def regsBus : Bus RegFile where
  read := fun m dev reg => (m dev reg, m)
  write := fun m dev reg v => fun d r => if d = dev ∧ r = reg then v.toNat else m d r

namespace I2CDevice

/-- I2CDevice `__getitem__` (`i2c.py` lines 112-116): one bus read. -/
def getitem {σ : Type} (B : Bus σ) (s : σ) (dev reg : ℕ) : ℕ × σ :=
  B.read s dev reg

/-- I2CDevice `__setitem__` (`i2c.py` lines 118-122): transmits
`int(byte_data)` in one bus write. -/
def setitem {σ : Type} (B : Bus σ) (s : σ) (dev reg : ℕ) (v : ByteData) : σ :=
  B.write s dev reg (pyIntOf v)

end I2CDevice

/-- Forward lookup in an association table (Python dict / bidict access
`t[k]`): `none` models the `KeyError`. -/
def tableGet {α β : Type} [DecidableEq α] : List (α × β) → α → Option β
  | [], _ => none
  | p :: t, k => if p.1 = k then some p.2 else tableGet t k

/-- Inverse lookup in a bidict (`t[:v]`): `none` models the `KeyError`. -/
def tableGetInv {α β : Type} [DecidableEq β] : List (α × β) → β → Option α
  | [], _ => none
  | p :: t, v => if p.2 = v then some p.1 else tableGetInv t v

namespace ADXL345

def ADDRESS : ℕ := 0x53
def OFSX : ℕ := 0x1e
def OFSY : ℕ := 0x1f
def OFSZ : ℕ := 0x20
def BW_RATE : ℕ := 0x2c
def POWER_CTL : ℕ := 0x2d
def DATA_FORMAT : ℕ := 0x31
def DATAX0 : ℕ := 0x32
def DATAX1 : ℕ := 0x33
def DATAY0 : ℕ := 0x34
def DATAY1 : ℕ := 0x35
def DATAZ0 : ℕ := 0x36
def DATAZ1 : ℕ := 0x37

/-- Data range (± g) to range-bits bidict (`i2c.py` lines 165-171). -/
def DATA_RANGES : List (ℚ × ℕ) := [(2, 0b00), (4, 0b01), (8, 0b10), (16, 0b11)]

/-- Data range to scale factor in mg/LSB (`i2c.py` lines 173-179). -/
def SCALE_FACTORS : List (ℚ × ℚ) := [(2, 3.9), (4, 7.8), (8, 15.6), (16, 31.2)]

/-- Scale factor of the offset registers in mg/LSB (`i2c.py` line 182). -/
def OFFSET_REGISTERS_SCALE_FACTOR : ℚ := 15.6

/-- Data rate (Hz) to rate-bits bidict (`i2c.py` lines 184-202). -/
def DATA_RATES : List (ℚ × ℕ) :=
  [(3200, 0b1111), (1600, 0b1110), (800, 0b1101), (400, 0b1100),
   (200, 0b1011), (100, 0b1010), (50, 0b1001), (25, 0b1000),
   (12.5, 0b0111), (6.25, 0b0110), (3.13, 0b0101), (1.56, 0b0100),
   (0.78, 0b0011), (0.39, 0b0010), (0.20, 0b0001), (0.10, 0b0000)]

/-- ADXL345 `read` with `_get_raw_xyz` inlined (`i2c.py` lines 213-229): six
data-register reads in address order, each axis decoded via the codec;
returns raw LSB counts, not unit-scaled. -/
def read {σ : Type} (B : Bus σ) (s : σ) : (ℤ × ℤ × ℤ) × σ :=
  let rx0 := I2CDevice.getitem B s ADDRESS DATAX0
  let rx1 := I2CDevice.getitem B rx0.2 ADDRESS DATAX1
  let ry0 := I2CDevice.getitem B rx1.2 ADDRESS DATAY0
  let ry1 := I2CDevice.getitem B ry0.2 ADDRESS DATAY1
  let rz0 := I2CDevice.getitem B ry1.2 ADDRESS DATAZ0
  let rz1 := I2CDevice.getitem B rz0.2 ADDRESS DATAZ1
  (((TwosComplement.ofBytes rx0.1 rx1.1).as_dec,
    (TwosComplement.ofBytes ry0.1 ry1.1).as_dec,
    (TwosComplement.ofBytes rz0.1 rz1.1).as_dec), rz1.2)

/-- ADXL345 `get_data_rate` (`i2c.py` lines 247-252): reads BW_RATE, keeps the
4 low bits (`% 16`), inverse bidict lookup. -/
def get_data_rate {σ : Type} (B : Bus σ) (s : σ) : Option ℚ × σ :=
  let r := I2CDevice.getitem B s ADDRESS BW_RATE
  (tableGetInv DATA_RATES (r.1 % 16), r.2)

/-- ADXL345 `set_data_rate` (`i2c.py` lines 254-264): `none` models the
`ValueError` for a rate not in the table, raised before any bus write. -/
def set_data_rate {σ : Type} (B : Bus σ) (s : σ) (rate : ℚ) : Option σ :=
  match tableGet DATA_RATES rate with
  | some setting => some (I2CDevice.setitem B s ADDRESS BW_RATE (.int setting))
  | none => none

/-- ADXL345 `get_data_range` (`i2c.py` lines 266-271): reads DATA_FORMAT,
keeps the 2 low bits (`% 4`), inverse bidict lookup. -/
def get_data_range {σ : Type} (B : Bus σ) (s : σ) : Option ℚ × σ :=
  let r := I2CDevice.getitem B s ADDRESS DATA_FORMAT
  (tableGetInv DATA_RANGES (r.1 % 4), r.2)

/-- ADXL345 `set_data_range` (`i2c.py` lines 273-282): `none` models the
`ValueError` for a range not in the table, raised before any bus write. -/
def set_data_range {σ : Type} (B : Bus σ) (s : σ) (data_range : ℚ) : Option σ :=
  match tableGet DATA_RANGES data_range with
  | some setting => some (I2CDevice.setitem B s ADDRESS DATA_FORMAT (.int setting))
  | none => none

/-- ADXL345 `_scale_to_match_offset_register` (`i2c.py` lines 304-311). -/
def scale_to_match_offset_register (value : ℚ) (data_range : ℚ) : Option ℚ :=
  (tableGet SCALE_FACTORS data_range).map
    (fun scale_factor => value * (scale_factor / OFFSET_REGISTERS_SCALE_FACTOR))

/-- ADXL345 `set_offset` (`i2c.py` lines 284-302): reads the current data
range, rescales each axis offset to the offset-register scale, negates,
encodes via the codec and writes the three offset-trim registers.  A `none`
anywhere models the exception (KeyError / ValueError) propagating, in the
source's evaluation order: the three scalings happen before any write. -/
def set_offset {σ : Type} (B : Bus σ) (s : σ) (offset_x offset_y offset_z : ℚ) :
    Option σ :=
  let r := get_data_range B s
  match r.1 with
  | none => none
  | some data_range =>
    match scale_to_match_offset_register offset_x data_range,
        scale_to_match_offset_register offset_y data_range,
        scale_to_match_offset_register offset_z data_range with
    | some scaled_x, some scaled_y, some scaled_z =>
      match TwosComplement.from_decimal (-scaled_x) with
      | none => none
      | some tx =>
        let s1 := I2CDevice.setitem B r.2 ADDRESS OFSX (.twos tx)
        match TwosComplement.from_decimal (-scaled_y) with
        | none => none
        | some ty =>
          let s2 := I2CDevice.setitem B s1 ADDRESS OFSY (.twos ty)
          match TwosComplement.from_decimal (-scaled_z) with
          | none => none
          | some tz => some (I2CDevice.setitem B s2 ADDRESS OFSZ (.twos tz))
    | _, _, _ => none

end ADXL345

namespace L3G4200D

def ADDRESS : ℕ := 0x69
def CTRL_REG4 : ℕ := 0x23
def OUT_X_L : ℕ := 0x28
def OUT_X_H : ℕ := 0x29
def OUT_Y_L : ℕ := 0x2a
def OUT_Y_H : ℕ := 0x2b
def OUT_Z_L : ℕ := 0x2c
def OUT_Z_H : ℕ := 0x2d

/-- Data range (± dps) to range-bits bidict (`i2c.py` lines 333-338): note
there is no entry with bits `0b11`. -/
def DATA_RANGES : List (ℚ × ℕ) := [(250, 0b00), (500, 0b01), (2000, 0b10)]

/-- Data range to scale factor in mdps/LSB (`i2c.py` lines 340-345). -/
def SCALE_FACTORS : List (ℚ × ℚ) := [(250, 8.75), (500, 17.50), (2000, 70)]

/-- L3G4200D `get_data_range` (`i2c.py` lines 383-390): reads CTRL_REG4, keeps
bits 5 and 4 (`(b >> 4) % 4`), inverse bidict lookup. -/
def get_data_range {σ : Type} (B : Bus σ) (s : σ) : Option ℚ × σ :=
  let r := I2CDevice.getitem B s ADDRESS CTRL_REG4
  (tableGetInv DATA_RANGES ((r.1 >>> 4) % 4), r.2)

/-- L3G4200D `set_data_range` (`i2c.py` lines 372-381): writes the range bits
shifted left by 4 into CTRL_REG4; `none` models the `ValueError`. -/
def set_data_range {σ : Type} (B : Bus σ) (s : σ) (data_range : ℚ) : Option σ :=
  match tableGet DATA_RANGES data_range with
  | some full_scale_bits =>
      some (I2CDevice.setitem B s ADDRESS CTRL_REG4
        (.int ((full_scale_bits <<< 4 : ℕ) : ℤ)))
  | none => none

/-- L3G4200D `read` (`i2c.py` lines 356-370): six data reads in address order;
with `raw = false` (the default) the current range is then read live and each
axis is multiplied by `SCALE_FACTORS[range] / 1000`; `none` models a
`KeyError` from the range or scale lookup. -/
def read {σ : Type} (B : Bus σ) (s : σ) (raw : Bool) : Option ((ℚ × ℚ × ℚ) × σ) :=
  let rx0 := I2CDevice.getitem B s ADDRESS OUT_X_L
  let rx1 := I2CDevice.getitem B rx0.2 ADDRESS OUT_X_H
  let ry0 := I2CDevice.getitem B rx1.2 ADDRESS OUT_Y_L
  let ry1 := I2CDevice.getitem B ry0.2 ADDRESS OUT_Y_H
  let rz0 := I2CDevice.getitem B ry1.2 ADDRESS OUT_Z_L
  let rz1 := I2CDevice.getitem B rz0.2 ADDRESS OUT_Z_H
  let x : ℚ := ((TwosComplement.ofBytes rx0.1 rx1.1).as_dec : ℚ)
  let y : ℚ := ((TwosComplement.ofBytes ry0.1 ry1.1).as_dec : ℚ)
  let z : ℚ := ((TwosComplement.ofBytes rz0.1 rz1.1).as_dec : ℚ)
  if raw then
    some ((x, y, z), rz1.2)
  else
    let rr := get_data_range B rz1.2
    match rr.1 with
    | none => none
    | some data_range =>
      match tableGet SCALE_FACTORS data_range with
      | none => none
      | some sf => some (((sf / 1000) * x, (sf / 1000) * y, (sf / 1000) * z), rr.2)

/-- Modelled from the spec: `L3G4200D.set_offset`, the gyroscope offset
write-back capability.  `AHRS.calibrate` in `control.py` calls
`self._gyro.set_offset(gx, gy, gz)` but class `L3G4200D` in `i2c.py` does not
define the method; the spec requires the gyro component to expose the
offset-setting operation even though hardware support for it may be a stub
("treat as a required interface, not an optional extra").  It is modelled as
a stub that records the pushed offsets and performs no bus transaction. -/
def set_offset {σ : Type} (s : σ) (gx gy gz : ℚ) : (ℚ × ℚ × ℚ) × σ :=
  ((gx, gy, gz), s)

end L3G4200D

/-- Loop of `AHRS.calibrate` (`control.py` lines 48-60) with the remaining
iteration count as fuel: each iteration reads the gyroscope with `read()` --
the default `raw=False`, hence unit-scaled dps values -- then the
accelerometer (raw LSB), accumulating both sums. -/
def AHRS.calibrateLoop {σ : Type} (B : Bus σ) (gsum asum : ℚ × ℚ × ℚ) (s : σ) :
    ℕ → Option ((ℚ × ℚ × ℚ) × (ℚ × ℚ × ℚ) × σ)
  | 0 => some (gsum, asum, s)
  | n + 1 =>
    match L3G4200D.read B s false with
    | none => none
    | some (g, s1) =>
      let a := ADXL345.read B s1
      AHRS.calibrateLoop B (gsum.1 + g.1, gsum.2.1 + g.2.1, gsum.2.2 + g.2.2)
        (asum.1 + (a.1.1 : ℚ), asum.2.1 + (a.1.2.1 : ℚ), asum.2.2 + (a.1.2.2 : ℚ))
        a.2 n

/-- AHRS `calibrate` (`control.py` lines 43-68): averages `n_samples` gyro and
accelerometer reads, subtracts 256 from the accelerometer z average, passes
the accelerometer averages to `ADXL345.set_offset` and the gyro averages to
the gyro offset stub.  Returns the triple passed to the accelerometer's
`set_offset`, the triple pushed to the gyro's offset stub, and the final bus
state; `none` models an exception (a failed scaled gyro read, a failed offset
encoding, or the `ZeroDivisionError` at `n_samples = 0`). -/
def AHRS.calibrate {σ : Type} (B : Bus σ) (s : σ) (n_samples : ℕ) :
    Option (((ℚ × ℚ × ℚ) × (ℚ × ℚ × ℚ)) × σ) :=
  if n_samples = 0 then none
  else
    match AHRS.calibrateLoop B (0, 0, 0) (0, 0, 0) s n_samples with
    | none => none
    | some (gsum, asum, s1) =>
      let ax := asum.1 / n_samples
      let ay := asum.2.1 / n_samples
      let az := asum.2.2 / n_samples - 256
      let gx := gsum.1 / n_samples
      let gy := gsum.2.1 / n_samples
      let gz := gsum.2.2 / n_samples
      match ADXL345.set_offset B s1 ax ay az with
      | none => none
      | some s2 =>
        let g := L3G4200D.set_offset s2 gx gy gz
        some (((ax, ay, az), g.1), g.2)

/-- The signed 16-bit sample decoded from the stream bytes at positions `b`
(low byte) and `b + 1` (high byte). -/
def rawPairAt (f : ℕ → ℕ) (b : ℕ) : ℤ :=
  (TwosComplement.ofBytes (f b) (f (b + 1))).as_dec

/-- Scale factor (dps per LSB) applied by an `L3G4200D.read` whose seven
stream reads start at position `b` (data bytes b..b+5, CTRL_REG4 byte at
b+6); `none` when the range bits have no table entry. -/
def gyroScaleAt (f : ℕ → ℕ) (b : ℕ) : Option ℚ :=
  (tableGetInv L3G4200D.DATA_RANGES ((f (b + 6) >>> 4) % 4)).bind
    (fun dr => (tableGet L3G4200D.SCALE_FACTORS dr).map (fun sf => sf / 1000))

/-- The dps-scaled gyro triple produced by an `L3G4200D.read` starting at
stream position `b` (0 stands in for the scale when the lookup fails). -/
def gyroScaledAt (f : ℕ → ℕ) (b : ℕ) : ℚ × ℚ × ℚ :=
  ((gyroScaleAt f b).getD 0 * (rawPairAt f b : ℚ),
   (gyroScaleAt f b).getD 0 * (rawPairAt f (b + 2) : ℚ),
   (gyroScaleAt f b).getD 0 * (rawPairAt f (b + 4) : ℚ))

/-- The raw accelerometer triple read by the calibration iteration whose
13 stream reads start at position `b` (accelerometer bytes at b+7..b+12). -/
def accelRawAt (f : ℕ → ℕ) (b : ℕ) : ℤ × ℤ × ℤ :=
  (rawPairAt f (b + 7), rawPairAt f (b + 9), rawPairAt f (b + 11))

/-- Byte stream of the C3 calibration counterexample: one calibration sample
in which each gyro axis reads the raw value 256 (low byte 0, high byte 1),
the gyro range reads 250 dps (bits 00), and the accelerometer reads zeros. -/
def calibStream : ℕ → ℕ :=
  fun i => [0, 1, 0, 1, 0, 1, 0, 0, 0, 0, 0, 0, 0, 0].getD i 0

noncomputable section AHRSLayer

/-- Conversion of radians to degrees, `math.degrees`. -/
def degrees (r : ℝ) : ℝ := r * 180 / Real.pi

/-- Two-argument arctangent `math.atan2 y x` with the C/Python quadrant
convention, on the single-zero real model (`atan2 0 0 = 0`, as Python's
`math.atan2(0.0, 0.0)`). -/
def atan2 (y x : ℝ) : ℝ :=
  if 0 < x then Real.arctan (y / x)
  else if x < 0 then
    (if 0 ≤ y then Real.arctan (y / x) + Real.pi else Real.arctan (y / x) - Real.pi)
  else
    (if 0 < y then Real.pi / 2 else if y < 0 then -(Real.pi / 2) else 0)

/-- Mutable state of the AHRS estimator (`control.py` lines 12-14):
`_last_read_time` (None until the first gyro read), `_int_pitch` and
`_int_roll` in degrees. -/
structure AHRSState where
  last_read_time : Option ℝ
  int_pitch : ℝ
  int_roll : ℝ

/-- Pitch component of AHRS `_get_accel_attitude` (`control.py` lines 85-93):
`degrees(atan2(-x, z))` on the raw accelerometer axes. -/
def accel_pitch (x z : ℝ) : ℝ := degrees (atan2 (-x) z)

/-- Roll component of AHRS `_get_accel_attitude`:
`degrees(atan2(y, sqrt(x**2 + z**2)))`. -/
def accel_roll (x y z : ℝ) : ℝ :=
  degrees (atan2 y (Real.sqrt (x ^ 2 + z ^ 2)))

/-- AHRS `_get_gyro_angles` (`control.py` lines 95-107): on the first call
(no previous timestamp) it records the time and returns no delta; afterwards
it multiplies each dps-scaled gyro rate by the elapsed time and records the
new timestamp. -/
def AHRS.get_gyro_angles (st : AHRSState) (gx gy gz now : ℝ) :
    Option (ℝ × ℝ × ℝ) × AHRSState :=
  match st.last_read_time with
  | none => (none, { st with last_read_time := some now })
  | some t =>
    (some (gx * (now - t), gy * (now - t), gz * (now - t)),
     { st with last_read_time := some now })

/-- AHRS `calculate` (`control.py` lines 70-83), with the sensor readings and
the wall-clock time passed in explicitly: `ax ay az` are the raw axes an
`ADXL345.read` returns, `gx gy gz` the dps-scaled rates an `L3G4200D.read`
returns, and `now` the current timestamp.  Returns the updated state and the
returned `(pitch, roll, heading)` triple, heading being the constant 360. -/
def AHRS.calculate (k : ℝ) (st : AHRSState) (ax ay az gx gy gz now : ℝ) :
    AHRSState × (ℝ × ℝ × ℝ) :=
  let a_pitch := accel_pitch ax az
  let a_roll := accel_roll ax ay az
  match AHRS.get_gyro_angles st gx gy gz now with
  | (none, st1) =>
    (⟨st1.last_read_time, a_pitch, a_roll⟩, (a_pitch, a_roll, 360))
  | (some g, st1) =>
    (⟨st1.last_read_time,
      k * (st.int_pitch + g.1) + (1 - k) * a_roll,
      k * (st.int_roll + g.2.1) + (1 - k) * a_roll⟩,
     (k * (st.int_pitch + g.1) + (1 - k) * a_roll,
      k * (st.int_roll + g.2.1) + (1 - k) * a_roll, 360))

/-- Repeated `calculate` cycles with a constant accelerometer reading and
zero gyro rates, the i-th cycle happening at time `times i`. -/
def AHRS.iterate_zero_gyro (k : ℝ) (ax ay az : ℝ) (times : ℕ → ℝ)
    (st : AHRSState) : ℕ → AHRSState
  | 0 => st
  | n + 1 =>
    (AHRS.calculate k (AHRS.iterate_zero_gyro k ax ay az times st n)
      ax ay az 0 0 0 (times n)).1

end AHRSLayer

section RoundingProperties

lemma pyRound_abs_sub_le (q : ℚ) : |q - (pyRound q : ℚ)| ≤ 1 / 2 := by
  unfold pyRound
  by_cases h : 0 ≤ q
  · rw [if_pos h]
    have h1 : ((⌊q + 1 / 2⌋ : ℤ) : ℚ) ≤ q + 1 / 2 := Int.floor_le _
    have h2 : q + 1 / 2 < ((⌊q + 1 / 2⌋ : ℤ) : ℚ) + 1 := Int.lt_floor_add_one _
    rw [abs_le]
    constructor <;> linarith
  · rw [if_neg h]
    have h1 : ((⌊-q + 1 / 2⌋ : ℤ) : ℚ) ≤ -q + 1 / 2 := Int.floor_le _
    have h2 : -q + 1 / 2 < ((⌊-q + 1 / 2⌋ : ℤ) : ℚ) + 1 := Int.lt_floor_add_one _
    rw [abs_le]
    push_cast
    constructor <;> linarith

lemma pyRound_tie_away (q : ℚ) (h : |q - (pyRound q : ℚ)| = 1 / 2) :
    |q| ≤ |(pyRound q : ℚ)| := by
  by_cases hq : 0 ≤ q
  · have hr : pyRound q = ⌊q + 1 / 2⌋ := by unfold pyRound; rw [if_pos hq]
    have h2 : q + 1 / 2 < ((⌊q + 1 / 2⌋ : ℤ) : ℚ) + 1 := Int.lt_floor_add_one _
    rw [hr] at h ⊢
    rcases (abs_eq (by norm_num : (0 : ℚ) ≤ 1 / 2)).mp h with h3 | h3
    · linarith
    · have he : ((⌊q + 1 / 2⌋ : ℤ) : ℚ) = q + 1 / 2 := by linarith
      rw [abs_of_nonneg hq, he, abs_of_nonneg (by linarith : (0 : ℚ) ≤ q + 1 / 2)]
      linarith
  · have hr : pyRound q = -⌊-q + 1 / 2⌋ := by unfold pyRound; rw [if_neg hq]
    have h2 : -q + 1 / 2 < ((⌊-q + 1 / 2⌋ : ℤ) : ℚ) + 1 := Int.lt_floor_add_one _
    rw [hr] at h ⊢
    push_cast at h ⊢
    rcases (abs_eq (by norm_num : (0 : ℚ) ≤ 1 / 2)).mp h with h3 | h3
    · have he : ((⌊-q + 1 / 2⌋ : ℤ) : ℚ) = -q + 1 / 2 := by linarith
      rw [abs_of_nonpos (by linarith : q ≤ 0), he]
      rw [abs_of_nonpos (by linarith : -(-q + 1 / 2) ≤ 0)]
      linarith
    · linarith

end RoundingProperties

/-- C8 (amended): encoding -128 yields the 8-bit pattern 0b10000000, encoding
32767 the 16-bit pattern 0b0111111111111111, and encoding 32768 or -32769 --
or any decimal whose rounded value (half away from zero) falls outside
[-32768, 32767] -- fails with a RangeError producing no value. -/
theorem from_decimal_boundary :
    TwosComplement.from_decimal (-128) = some ⟨0b10000000, 8⟩
    ∧ TwosComplement.from_decimal 32767 = some ⟨0b0111111111111111, 16⟩
    ∧ TwosComplement.from_decimal 32768 = none
    ∧ TwosComplement.from_decimal (-32769) = none
    ∧ ∀ q : ℚ, (pyRound q < -32768 ∨ 32767 < pyRound q) →
        TwosComplement.from_decimal q = none := by
  refine ⟨?_, ?_, ?_, ?_, ?_⟩
  · unfold TwosComplement.from_decimal
    rw [show (-128 : ℚ) = (((-128 : ℤ) : ℚ)) by norm_num, pyRound_intCast]
    decide
  · unfold TwosComplement.from_decimal
    rw [show (32767 : ℚ) = (((32767 : ℤ) : ℚ)) by norm_num, pyRound_intCast]
    decide
  · unfold TwosComplement.from_decimal
    rw [show (32768 : ℚ) = (((32768 : ℤ) : ℚ)) by norm_num, pyRound_intCast]
    decide
  · unfold TwosComplement.from_decimal
    rw [show (-32769 : ℚ) = (((-32769 : ℤ) : ℚ)) by norm_num, pyRound_intCast]
    decide
  · intro q h
    unfold TwosComplement.from_decimal TwosComplement.from_rounded
    rcases h with h | h <;> split_ifs <;> first | rfl | (exfalso; omega)

/-- C8 counterexample: the decimal -32768.4 = -163842/5 lies outside
[-32768, 32767], yet `from_decimal` succeeds on it (it rounds to -32768 and
encodes the 16-bit pattern 0x8000) instead of failing with a RangeError. -/
theorem from_decimal_outside_interval_succeeds :
    (-163842 / 5 : ℚ) < -32768
    ∧ TwosComplement.from_decimal (-163842 / 5) = some ⟨0b1000000000000000, 16⟩ := by
  constructor
  · norm_num
  · unfold TwosComplement.from_decimal
    rw [show pyRound (-163842 / 5 : ℚ) = -32768 by unfold pyRound; norm_num]
    decide

/-- C2: encoding rounds to the nearest integer (distance at most 1/2) with
ties away from zero (at distance exactly 1/2 the rounded value's magnitude is
at least the input's); with the data range read back as 2g (DATA_FORMAT byte
0, scale 3.9 mg/LSB) and the fixed offset-register scale 15.6 mg/LSB, an
x-axis input of 10 counts scales to 10 * (3.9/15.6) = 2.5, and `set_offset`
with inputs (10, -13, 9) negates and encodes each axis, writing bytes
0xFD, 0x03, 0xFE to the OFSX/OFSY/OFSZ registers. -/
theorem set_offset_scales_rounds_and_writes :
    (∀ q : ℚ, |q - (pyRound q : ℚ)| ≤ 1 / 2)
    ∧ (∀ q : ℚ, |q - (pyRound q : ℚ)| = 1 / 2 → |q| ≤ |(pyRound q : ℚ)|)
    ∧ ADXL345.scale_to_match_offset_register 10 2 = some (5 / 2)
    ∧ (ADXL345.set_offset streamBus ⟨fun _ => 0, 0, []⟩ 10 (-13) 9).map SMBus.writes
        = some [(0x53, 0x1e, 0xfd), (0x53, 0x1f, 0x03), (0x53, 0x20, 0xfe)] := by
  refine ⟨pyRound_abs_sub_le, pyRound_tie_away, ?_, ?_⟩
  · norm_num [ADXL345.scale_to_match_offset_register, tableGet, ADXL345.SCALE_FACTORS,
      ADXL345.OFFSET_REGISTERS_SCALE_FACTOR]
  · have hr : ADXL345.get_data_range streamBus ⟨fun _ => 0, 0, []⟩
        = (some 2, ⟨fun _ => 0, 1, []⟩) := by
      norm_num [ADXL345.get_data_range, I2CDevice.getitem, streamBus, tableGetInv,
        ADXL345.DATA_RANGES]
    have hsx : ADXL345.scale_to_match_offset_register 10 2 = some (5 / 2) := by
      norm_num [ADXL345.scale_to_match_offset_register, tableGet, ADXL345.SCALE_FACTORS,
        ADXL345.OFFSET_REGISTERS_SCALE_FACTOR]
    have hsy : ADXL345.scale_to_match_offset_register (-13) 2 = some (-(13 / 4)) := by
      norm_num [ADXL345.scale_to_match_offset_register, tableGet, ADXL345.SCALE_FACTORS,
        ADXL345.OFFSET_REGISTERS_SCALE_FACTOR]
    have hsz : ADXL345.scale_to_match_offset_register 9 2 = some (9 / 4) := by
      norm_num [ADXL345.scale_to_match_offset_register, tableGet, ADXL345.SCALE_FACTORS,
        ADXL345.OFFSET_REGISTERS_SCALE_FACTOR]
    have htx : TwosComplement.from_decimal (-(5 / 2)) = some ⟨253, 8⟩ := by
      unfold TwosComplement.from_decimal
      rw [show pyRound (-(5 / 2) : ℚ) = -3 by unfold pyRound; norm_num]
      decide
    have hty : TwosComplement.from_decimal (13 / 4) = some ⟨3, 8⟩ := by
      unfold TwosComplement.from_decimal
      rw [show pyRound ((13 / 4) : ℚ) = 3 by unfold pyRound; norm_num]
      decide
    have htz : TwosComplement.from_decimal (-(9 / 4)) = some ⟨254, 8⟩ := by
      unfold TwosComplement.from_decimal
      rw [show pyRound (-(9 / 4) : ℚ) = -2 by unfold pyRound; norm_num]
      decide
    unfold ADXL345.set_offset
    rw [hr]
    simp [hsx, hsy, hsz, htx, hty, htz, I2CDevice.setitem, streamBus, pyIntOf,
      TwosComplement.as_bin, ADXL345.ADDRESS, ADXL345.OFSX, ADXL345.OFSY, ADXL345.OFSZ]

/-- C9 (amended): the register-device write transmits exactly `int(byte_data)`
on the bus -- an integer unchanged, a TwosComplement as its raw unsigned bit
pattern via `__int__` -- with no truncation into [0, 256); the read side of
the bus state is untouched. -/
theorem setitem_transmits_int_coercion (s : SMBus) (dev reg : ℕ) (v : ByteData) :
    (I2CDevice.setitem streamBus s dev reg v).writes = s.writes ++ [(dev, reg, pyIntOf v)]
    ∧ (I2CDevice.setitem streamBus s dev reg v).count = s.count
    ∧ (I2CDevice.setitem streamBus s dev reg v).input = s.input
    ∧ (∀ n : ℤ, pyIntOf (.int n) = n)
    ∧ (∀ t : TwosComplement, pyIntOf (.twos t) = (t.as_bin : ℤ)) :=
  ⟨rfl, rfl, rfl, fun _ => rfl, fun _ => rfl⟩

/-- Witness for C9's amended theorem at a concrete write. -/
theorem setitem_transmits_int_coercion_witness :
    (I2CDevice.setitem streamBus ⟨fun _ => 0, 0, []⟩ 0x53 0x2d (.int 8)).writes
      = [] ++ [(0x53, 0x2d, pyIntOf (.int 8))] :=
  (setitem_transmits_int_coercion ⟨fun _ => 0, 0, []⟩ 0x53 0x2d (.int 8)).1

/-- C9 counterexample: writing the value 300 through `__setitem__` transmits
300 itself on the bus, which is not an 8-bit unsigned value in [0, 256). -/
theorem setitem_no_byte_truncation :
    (I2CDevice.setitem streamBus ⟨fun _ => 0, 0, []⟩ 0x53 0x2d (.int 300)).writes
      = [(0x53, 0x2d, 300)]
    ∧ ¬ ((0 : ℤ) ≤ 300 ∧ (300 : ℤ) < 256) := by
  exact ⟨rfl, by omega⟩

/-- C7: every entry of the accelerometer range table, the accelerometer rate
table and the gyroscope range table round-trips through the device register
on ideal register hardware -- get after set returns the value set -- and the
gyroscope's 2-bit range field is placed at bit offset 4 of CTRL_REG4. -/
theorem range_rate_maps_roundtrip (m : RegFile) (v : ℚ) (bits : ℕ) :
    ((v, bits) ∈ ADXL345.DATA_RANGES →
      (ADXL345.set_data_range regsBus m v).map
        (fun m2 => (ADXL345.get_data_range regsBus m2).1) = some (some v))
    ∧ ((v, bits) ∈ ADXL345.DATA_RATES →
      (ADXL345.set_data_rate regsBus m v).map
        (fun m2 => (ADXL345.get_data_rate regsBus m2).1) = some (some v))
    ∧ ((v, bits) ∈ L3G4200D.DATA_RANGES →
      (L3G4200D.set_data_range regsBus m v).map
        (fun m2 => (L3G4200D.get_data_range regsBus m2).1) = some (some v)
      ∧ (L3G4200D.set_data_range regsBus m v).map
          (fun m2 => m2 L3G4200D.ADDRESS L3G4200D.CTRL_REG4) = some (bits <<< 4)) := by
  refine ⟨fun h => ?_, fun h => ?_, fun h => ?_⟩
  · fin_cases h <;>
      simp [ADXL345.set_data_range, ADXL345.get_data_range, regsBus, I2CDevice.setitem,
        I2CDevice.getitem, pyIntOf, tableGet, tableGetInv, ADXL345.DATA_RANGES]
  · fin_cases h <;>
      norm_num [ADXL345.set_data_rate, ADXL345.get_data_rate, regsBus, I2CDevice.setitem,
        I2CDevice.getitem, pyIntOf, tableGet, tableGetInv, ADXL345.DATA_RATES] <;>
      simp
  · fin_cases h <;>
      refine ⟨?_, ?_⟩ <;>
      simp [L3G4200D.set_data_range, L3G4200D.get_data_range, regsBus, I2CDevice.setitem,
        I2CDevice.getitem, pyIntOf, tableGet, tableGetInv, L3G4200D.DATA_RANGES]

/-- Witness for C7 at the concrete entry (500 dps, bits 0b01) on an all-zero
register file. -/
theorem range_rate_maps_roundtrip_witness :
    ((500 : ℚ), (0b01 : ℕ)) ∈ L3G4200D.DATA_RANGES ∧
    (L3G4200D.set_data_range regsBus (fun _ _ => 0) 500).map
      (fun m2 => (L3G4200D.get_data_range regsBus m2).1) = some (some 500) :=
  ⟨by simp [L3G4200D.DATA_RANGES],
    ((range_rate_maps_roundtrip (fun _ _ => 0) 500 0b01).2.2
      (by simp [L3G4200D.DATA_RANGES])).1⟩

/-- C10: on any register contents, the accelerometer's get_data_range and
get_data_rate always succeed (the masked 2-bit and 4-bit fields always hit a
table entry), while the gyroscope's get_data_range fails with a lookup error
exactly when bits [5:4] of CTRL_REG4 read back as 0b11. -/
theorem get_lookup_totality_gap (m : RegFile) :
    (ADXL345.get_data_range regsBus m).1.isSome
    ∧ (ADXL345.get_data_rate regsBus m).1.isSome
    ∧ ((L3G4200D.get_data_range regsBus m).1 = none ↔
        (m L3G4200D.ADDRESS L3G4200D.CTRL_REG4 >>> 4) % 4 = 3) := by
  refine ⟨?_, ?_, ?_⟩
  · have h4 : m ADXL345.ADDRESS ADXL345.DATA_FORMAT % 4 = 0 ∨
        m ADXL345.ADDRESS ADXL345.DATA_FORMAT % 4 = 1 ∨
        m ADXL345.ADDRESS ADXL345.DATA_FORMAT % 4 = 2 ∨
        m ADXL345.ADDRESS ADXL345.DATA_FORMAT % 4 = 3 := by omega
    rcases h4 with h | h | h | h <;>
      simp [ADXL345.get_data_range, I2CDevice.getitem, regsBus, tableGetInv,
        ADXL345.DATA_RANGES, h]
  · have h16 : ∃ r : ℕ, r < 16 ∧ m ADXL345.ADDRESS ADXL345.BW_RATE % 16 = r :=
      ⟨_, Nat.mod_lt _ (by norm_num), rfl⟩
    obtain ⟨r, hr, h⟩ := h16
    interval_cases r <;>
      simp [ADXL345.get_data_rate, I2CDevice.getitem, regsBus, tableGetInv,
        ADXL345.DATA_RATES, h]
  · have h4 : (m L3G4200D.ADDRESS L3G4200D.CTRL_REG4 >>> 4) % 4 = 0 ∨
        (m L3G4200D.ADDRESS L3G4200D.CTRL_REG4 >>> 4) % 4 = 1 ∨
        (m L3G4200D.ADDRESS L3G4200D.CTRL_REG4 >>> 4) % 4 = 2 ∨
        (m L3G4200D.ADDRESS L3G4200D.CTRL_REG4 >>> 4) % 4 = 3 := by omega
    rcases h4 with h | h | h | h <;>
      simp [L3G4200D.get_data_range, I2CDevice.getitem, regsBus, tableGetInv,
        L3G4200D.DATA_RANGES, h]

section AHRSLemmas

lemma calculate_none_step (k : ℝ) (st : AHRSState) (ax ay az gx gy gz now : ℝ)
    (h : st.last_read_time = none) :
    AHRS.calculate k st ax ay az gx gy gz now =
      (⟨some now, accel_pitch ax az, accel_roll ax ay az⟩,
       (accel_pitch ax az, accel_roll ax ay az, 360)) := by
  unfold AHRS.calculate AHRS.get_gyro_angles
  rw [h]

lemma calculate_some_step (k : ℝ) (st : AHRSState) (ax ay az gx gy gz now t : ℝ)
    (h : st.last_read_time = some t) :
    AHRS.calculate k st ax ay az gx gy gz now =
      (⟨some now,
        k * (st.int_pitch + gx * (now - t)) + (1 - k) * accel_roll ax ay az,
        k * (st.int_roll + gy * (now - t)) + (1 - k) * accel_roll ax ay az⟩,
       (k * (st.int_pitch + gx * (now - t)) + (1 - k) * accel_roll ax ay az,
        k * (st.int_roll + gy * (now - t)) + (1 - k) * accel_roll ax ay az, 360)) := by
  unfold AHRS.calculate AHRS.get_gyro_angles
  rw [h]

lemma iterate_zero_gyro_spec (k ax ay az : ℝ) (times : ℕ → ℝ) (st : AHRSState)
    (t : ℝ) (h : st.last_read_time = some t) (n : ℕ) :
    (∃ u, (AHRS.iterate_zero_gyro k ax ay az times st n).last_read_time = some u)
    ∧ (AHRS.iterate_zero_gyro k ax ay az times st n).int_pitch - accel_roll ax ay az
        = k ^ n * (st.int_pitch - accel_roll ax ay az)
    ∧ (AHRS.iterate_zero_gyro k ax ay az times st n).int_roll - accel_roll ax ay az
        = k ^ n * (st.int_roll - accel_roll ax ay az) := by
  induction n with
  | zero => exact ⟨⟨t, h⟩, by simp [AHRS.iterate_zero_gyro], by simp [AHRS.iterate_zero_gyro]⟩
  | succ n ih =>
    obtain ⟨⟨u, hu⟩, hp, hr⟩ := ih
    have hstep := calculate_some_step k (AHRS.iterate_zero_gyro k ax ay az times st n)
      ax ay az 0 0 0 (times n) u hu
    unfold AHRS.iterate_zero_gyro
    rw [hstep]
    refine ⟨⟨times n, rfl⟩, ?_, ?_⟩
    · have he : k * ((AHRS.iterate_zero_gyro k ax ay az times st n).int_pitch
          + 0 * (times n - u)) + (1 - k) * accel_roll ax ay az - accel_roll ax ay az
          = k * ((AHRS.iterate_zero_gyro k ax ay az times st n).int_pitch
              - accel_roll ax ay az) := by ring
      rw [he, hp]
      ring
    · have he : k * ((AHRS.iterate_zero_gyro k ax ay az times st n).int_roll
          + 0 * (times n - u)) + (1 - k) * accel_roll ax ay az - accel_roll ax ay az
          = k * ((AHRS.iterate_zero_gyro k ax ay az times st n).int_roll
              - accel_roll ax ay az) := by ring
      rw [he, hr]
      ring

end AHRSLemmas

section CalibrationLemmas

lemma L3G_read_raw (f : ℕ → ℕ) (c : ℕ) (w : List (ℕ × ℕ × ℤ)) :
    L3G4200D.read streamBus ⟨f, c, w⟩ true =
      some (((rawPairAt f c : ℚ), (rawPairAt f (c + 2) : ℚ), (rawPairAt f (c + 4) : ℚ)),
        ⟨f, c + 6, w⟩) := by
  simp [L3G4200D.read, I2CDevice.getitem, streamBus, rawPairAt]

lemma L3G_read_scaled (f : ℕ → ℕ) (c : ℕ) (w : List (ℕ × ℕ × ℤ)) (s : ℚ)
    (h : gyroScaleAt f c = some s) :
    L3G4200D.read streamBus ⟨f, c, w⟩ false =
      some ((s * (rawPairAt f c : ℚ), s * (rawPairAt f (c + 2) : ℚ),
             s * (rawPairAt f (c + 4) : ℚ)), ⟨f, c + 7, w⟩) := by
  cases hdr : tableGetInv L3G4200D.DATA_RANGES ((f (c + 6) >>> 4) % 4) with
  | none => simp [gyroScaleAt, hdr] at h
  | some dr =>
    cases hsf : tableGet L3G4200D.SCALE_FACTORS dr with
    | none => simp [gyroScaleAt, hdr, hsf] at h
    | some sf =>
      have hs : sf / 1000 = s := by
        simpa [gyroScaleAt, hdr, hsf] using h
      simp [L3G4200D.read, L3G4200D.get_data_range, I2CDevice.getitem, streamBus,
        rawPairAt, hdr, hsf, hs]

lemma gyroScaledAt_eq (f : ℕ → ℕ) (c : ℕ) (s : ℚ) (h : gyroScaleAt f c = some s) :
    gyroScaledAt f c =
      (s * (rawPairAt f c : ℚ), s * (rawPairAt f (c + 2) : ℚ),
       s * (rawPairAt f (c + 4) : ℚ)) := by
  simp [gyroScaledAt, h]

lemma ADXL_read_stream (f : ℕ → ℕ) (c : ℕ) (w : List (ℕ × ℕ × ℤ)) :
    ADXL345.read streamBus ⟨f, c, w⟩ =
      ((rawPairAt f c, rawPairAt f (c + 2), rawPairAt f (c + 4)), ⟨f, c + 6, w⟩) := by
  simp [ADXL345.read, I2CDevice.getitem, streamBus, rawPairAt]

lemma calibrateLoop_spec (f : ℕ → ℕ) (n : ℕ) :
    ∀ (c : ℕ) (g a : ℚ × ℚ × ℚ) (w : List (ℕ × ℕ × ℤ)),
    (∀ i, i < n → (gyroScaleAt f (c + 13 * i)).isSome) →
    AHRS.calibrateLoop streamBus g a ⟨f, c, w⟩ n =
      some
        ((g.1 + ∑ i ∈ Finset.range n, (gyroScaledAt f (c + 13 * i)).1,
          g.2.1 + ∑ i ∈ Finset.range n, (gyroScaledAt f (c + 13 * i)).2.1,
          g.2.2 + ∑ i ∈ Finset.range n, (gyroScaledAt f (c + 13 * i)).2.2),
         (a.1 + ∑ i ∈ Finset.range n, ((accelRawAt f (c + 13 * i)).1 : ℚ),
          a.2.1 + ∑ i ∈ Finset.range n, ((accelRawAt f (c + 13 * i)).2.1 : ℚ),
          a.2.2 + ∑ i ∈ Finset.range n, ((accelRawAt f (c + 13 * i)).2.2 : ℚ)),
         ⟨f, c + 13 * n, w⟩) := by
  induction n with
  | zero => intro c g a w _; simp [AHRS.calibrateLoop]
  | succ n ih =>
    intro c g a w hs
    obtain ⟨s, hsc⟩ := Option.isSome_iff_exists.mp (hs 0 (Nat.succ_pos n))
    rw [show c + 13 * 0 = c by ring] at hsc
    have hread := L3G_read_scaled f c w s hsc
    have hshift : ∀ i, i < n → (gyroScaleAt f ((c + 13) + 13 * i)).isSome := by
      intro i hi
      have := hs (i + 1) (by omega)
      rwa [show c + 13 * (i + 1) = (c + 13) + 13 * i by ring] at this
    unfold AHRS.calibrateLoop
    rw [hread]
    simp only []
    rw [ADXL_read_stream f (c + 7) w]
    have hrec := ih (c + 13)
      (g.1 + s * (rawPairAt f c : ℚ), g.2.1 + s * (rawPairAt f (c + 2) : ℚ),
       g.2.2 + s * (rawPairAt f (c + 4) : ℚ))
      (a.1 + (rawPairAt f (c + 7) : ℚ), a.2.1 + (rawPairAt f (c + 9) : ℚ),
       a.2.2 + (rawPairAt f (c + 11) : ℚ)) w hshift
    rw [show c + 7 + 2 = c + 9 by ring, show c + 7 + 4 = c + 11 by ring,
      show c + 7 + 6 = c + 13 by ring]
    rw [hrec]
    have hsum : ∀ h : ℕ → ℚ, ∑ i ∈ Finset.range (n + 1), h (c + 13 * i)
        = h c + ∑ i ∈ Finset.range n, h (c + 13 + 13 * i) := by
      intro h
      rw [Finset.sum_range_succ']
      rw [show c + 13 * 0 = c by ring, add_comm]
      congr 1
      refine Finset.sum_congr rfl (fun i _ => ?_)
      rw [show c + 13 * (i + 1) = c + 13 + 13 * i by ring]
    have hg := gyroScaledAt_eq f c s hsc
    have hg1 := hsum (fun b => (gyroScaledAt f b).1)
    have hg2 := hsum (fun b => (gyroScaledAt f b).2.1)
    have hg3 := hsum (fun b => (gyroScaledAt f b).2.2)
    have ha1 := hsum (fun b => ((accelRawAt f b).1 : ℚ))
    have ha2 := hsum (fun b => ((accelRawAt f b).2.1 : ℚ))
    have ha3 := hsum (fun b => ((accelRawAt f b).2.2 : ℚ))
    rw [show c + 13 * (n + 1) = c + 13 + 13 * n by ring,
      hg1, hg2, hg3, ha1, ha2, ha3, hg]
    dsimp only [accelRawAt]
    refine congrArg some ?_
    refine Prod.ext (Prod.ext ?_ (Prod.ext ?_ ?_))
      (Prod.ext (Prod.ext ?_ (Prod.ext ?_ ?_)) ?_)
    · ring
    · ring
    · ring
    · ring
    · ring
    · ring
    · rfl

lemma from_rounded_isSome (d : ℤ) (h1 : -32768 ≤ d) (h2 : d ≤ 32767) :
    (TwosComplement.from_rounded d).isSome := by
  unfold TwosComplement.from_rounded
  split_ifs <;> simp <;> omega

lemma from_decimal_isSome_of_abs_le (q : ℚ) (h : |q| ≤ 32767) :
    (TwosComplement.from_decimal q).isSome := by
  have hb := pyRound_abs_sub_le q
  rw [abs_le] at hb h
  have h1 : ((pyRound q : ℤ) : ℚ) < 32768 := by linarith
  have h2 : (-32768 : ℚ) < ((pyRound q : ℤ) : ℚ) := by linarith
  have hi1 : pyRound q < 32768 := by exact_mod_cast h1
  have hi2 : -32768 < pyRound q := by exact_mod_cast h2
  unfold TwosComplement.from_decimal
  exact from_rounded_isSome _ (by omega) (by omega)

lemma rawPairAt_bounds (f : ℕ → ℕ) (b : ℕ) (h0 : f b < 256) (h1 : f (b + 1) < 256) :
    -32768 ≤ rawPairAt f b ∧ rawPairAt f b ≤ 32767 := by
  unfold rawPairAt TwosComplement.ofBytes
  have hvb : (f (b + 1) <<< 8) + f b < 65536 := by
    rw [Nat.shiftLeft_eq]
    norm_num
    omega
  by_cases hs : (f (b + 1) <<< 8) + f b < 32768
  · rw [TwosComplement.as_dec_mk16_pos _ hs]
    omega
  · rw [TwosComplement.as_dec_mk16_neg _ (by omega)]
    omega

lemma avg_mem_Icc (x : ℕ → ℚ) (n : ℕ) (hn : 1 ≤ n) (lo hi : ℚ)
    (h : ∀ i, i < n → lo ≤ x i ∧ x i ≤ hi) :
    lo ≤ (∑ i ∈ Finset.range n, x i) / n ∧ (∑ i ∈ Finset.range n, x i) / n ≤ hi := by
  have hs1 : (n : ℚ) * lo ≤ ∑ i ∈ Finset.range n, x i := by
    calc (n : ℚ) * lo = ∑ _i ∈ Finset.range n, lo := by
          rw [Finset.sum_const, Finset.card_range, nsmul_eq_mul]
      _ ≤ ∑ i ∈ Finset.range n, x i :=
          Finset.sum_le_sum (fun i hi => (h i (Finset.mem_range.mp hi)).1)
  have hs2 : (∑ i ∈ Finset.range n, x i) ≤ (n : ℚ) * hi := by
    calc (∑ i ∈ Finset.range n, x i) ≤ ∑ _i ∈ Finset.range n, hi :=
          Finset.sum_le_sum (fun i hi => (h i (Finset.mem_range.mp hi)).2)
      _ = (n : ℚ) * hi := by rw [Finset.sum_const, Finset.card_range, nsmul_eq_mul]
  have hnp : (0 : ℚ) < n := by exact_mod_cast hn
  constructor
  · rw [le_div_iff hnp]
    linarith
  · rw [div_le_iff hnp]
    linarith

lemma scale_to_match_2g (o : ℚ) :
    ADXL345.scale_to_match_offset_register o 2 = some (o * (1 / 4)) := by
  norm_num [ADXL345.scale_to_match_offset_register, tableGet, ADXL345.SCALE_FACTORS,
    ADXL345.OFFSET_REGISTERS_SCALE_FACTOR]

lemma set_offset_stream_isSome (f : ℕ → ℕ) (c : ℕ) (w : List (ℕ × ℕ × ℤ))
    (ox oy oz : ℚ) (h2g : f c % 4 = 0)
    (hx : |ox| ≤ 131068) (hy : |oy| ≤ 131068) (hz : |oz| ≤ 131068) :
    (ADXL345.set_offset streamBus ⟨f, c, w⟩ ox oy oz).isSome := by
  have hr : ADXL345.get_data_range streamBus ⟨f, c, w⟩ = (some 2, ⟨f, c + 1, w⟩) := by
    norm_num [ADXL345.get_data_range, I2CDevice.getitem, streamBus, tableGetInv,
      ADXL345.DATA_RANGES, h2g]
  have hfd : ∀ o : ℚ, |o| ≤ 131068 → (TwosComplement.from_decimal (-(o * (1 / 4)))).isSome := by
    intro o ho
    apply from_decimal_isSome_of_abs_le
    rw [abs_neg, abs_mul, abs_of_nonneg (by norm_num : (0 : ℚ) ≤ 1 / 4)]
    linarith
  obtain ⟨tx, htx⟩ := Option.isSome_iff_exists.mp (hfd ox hx)
  obtain ⟨ty, hty⟩ := Option.isSome_iff_exists.mp (hfd oy hy)
  obtain ⟨tz, htz⟩ := Option.isSome_iff_exists.mp (hfd oz hz)
  unfold ADXL345.set_offset
  rw [hr]
  simp only [one_div] at htx hty htz
  simp [scale_to_match_2g, htx, hty, htz, I2CDevice.setitem, streamBus]

end CalibrationLemmas

/-- C3 (amended): for every n >= 1, on a byte stream where every scaled gyro
read succeeds and the range register reads back 2g at offset time,
`AHRS.calibrate(n)` averages n consecutive unit-scaled (dps) gyroscope
samples -- `read()` is called without the raw flag -- and n consecutive raw
(LSB) accelerometer samples, subtracts 256 from the accelerometer z average,
passes (ax_avg, ay_avg, az_avg - 256) to the accelerometer's `set_offset`,
and pushes the dps-scaled gyro averages to the gyroscope's offset-setting
stub (an interface the spec requires but `L3G4200D` does not implement). -/
theorem calibrate_averages (f : ℕ → ℕ) (n : ℕ)
    (hn : 1 ≤ n)
    (hb : ∀ i, f i < 256)
    (hs : ∀ i, i < n → (gyroScaleAt f (13 * i)).isSome)
    (h2g : f (13 * n) % 4 = 0) :
    (AHRS.calibrate streamBus ⟨f, 0, []⟩ n).map Prod.fst =
      some
        (((∑ i ∈ Finset.range n, ((accelRawAt f (13 * i)).1 : ℚ)) / n,
          (∑ i ∈ Finset.range n, ((accelRawAt f (13 * i)).2.1 : ℚ)) / n,
          (∑ i ∈ Finset.range n, ((accelRawAt f (13 * i)).2.2 : ℚ)) / n - 256),
         ((∑ i ∈ Finset.range n, (gyroScaledAt f (13 * i)).1) / n,
          (∑ i ∈ Finset.range n, (gyroScaledAt f (13 * i)).2.1) / n,
          (∑ i ∈ Finset.range n, (gyroScaledAt f (13 * i)).2.2) / n)) := by
  have hloop := calibrateLoop_spec f n 0 (0, 0, 0) (0, 0, 0) []
    (by intro i hi; simpa using hs i hi)
  simp only [Nat.zero_add] at hloop
  have havg : ∀ p : ℕ, p = 7 ∨ p = 9 ∨ p = 11 →
      |(∑ i ∈ Finset.range n, ((rawPairAt f (13 * i + p) : ℚ))) / n| ≤ 32768 := by
    intro p _
    have hbnd := avg_mem_Icc (fun i => ((rawPairAt f (13 * i + p) : ℚ))) n hn
      (-32768) 32767 (fun i _ => by
        have := rawPairAt_bounds f (13 * i + p) (hb _) (hb _)
        dsimp only
        constructor
        · exact_mod_cast this.1
        · exact_mod_cast this.2)
    rw [abs_le]
    constructor <;> linarith [hbnd.1, hbnd.2]
  unfold AHRS.calibrate
  rw [if_neg (by omega : ¬ n = 0), hloop]
  simp only [zero_add]
  have hso := set_offset_stream_isSome f (13 * n) []
    ((∑ i ∈ Finset.range n, ((accelRawAt f (13 * i)).1 : ℚ)) / n)
    ((∑ i ∈ Finset.range n, ((accelRawAt f (13 * i)).2.1 : ℚ)) / n)
    ((∑ i ∈ Finset.range n, ((accelRawAt f (13 * i)).2.2 : ℚ)) / n - 256)
    h2g
    (by
      have := havg 7 (Or.inl rfl)
      simp only [accelRawAt]
      rw [abs_le] at this ⊢
      constructor <;> linarith [this.1, this.2])
    (by
      have := havg 9 (Or.inr (Or.inl rfl))
      simp only [accelRawAt]
      rw [abs_le] at this ⊢
      constructor <;> linarith [this.1, this.2])
    (by
      have := havg 11 (Or.inr (Or.inr rfl))
      simp only [accelRawAt]
      rw [abs_le] at this ⊢
      constructor <;> linarith [this.1, this.2])
  obtain ⟨s2, hs2⟩ := Option.isSome_iff_exists.mp hso
  rw [hs2]
  simp [L3G4200D.set_offset]

/-- Witness for C3's amended theorem on the one-sample stream
`calibStream`. -/
theorem calibrate_averages_witness :
    (1 : ℕ) ≤ 1
    ∧ (∀ i, calibStream i < 256)
    ∧ (∀ i, i < 1 → (gyroScaleAt calibStream (13 * i)).isSome)
    ∧ calibStream (13 * 1) % 4 = 0
    ∧ (AHRS.calibrate streamBus ⟨calibStream, 0, []⟩ 1).map Prod.fst =
      some
        (((∑ i ∈ Finset.range 1, ((accelRawAt calibStream (13 * i)).1 : ℚ)) / 1,
          (∑ i ∈ Finset.range 1, ((accelRawAt calibStream (13 * i)).2.1 : ℚ)) / 1,
          (∑ i ∈ Finset.range 1, ((accelRawAt calibStream (13 * i)).2.2 : ℚ)) / 1 - 256),
         ((∑ i ∈ Finset.range 1, (gyroScaledAt calibStream (13 * i)).1) / 1,
          (∑ i ∈ Finset.range 1, (gyroScaledAt calibStream (13 * i)).2.1) / 1,
          (∑ i ∈ Finset.range 1, (gyroScaledAt calibStream (13 * i)).2.2) / 1)) := by
  have hb : ∀ i, calibStream i < 256 := by
    intro i
    rcases Nat.lt_or_ge i 14 with h | h
    · interval_cases i <;> decide
    · rw [calibStream, List.getD_eq_default _ _ (by simpa using h)]
      norm_num
  have hs : ∀ i, i < 1 → (gyroScaleAt calibStream (13 * i)).isSome := by
    intro i hi
    interval_cases i
    norm_num [gyroScaleAt, calibStream, tableGetInv, tableGet,
      L3G4200D.DATA_RANGES, L3G4200D.SCALE_FACTORS]
  have h2g : calibStream (13 * 1) % 4 = 0 := by decide
  exact ⟨le_refl 1, hb, hs, h2g, calibrate_averages calibStream 1 (le_refl 1) hb hs h2g⟩

/-- C3 counterexample: on the stream `calibStream` each raw gyro sample is
(256, 256, 256), but `calibrate(1)` pushes (2.24, 2.24, 2.24) -- the
dps-scaled averages at the 250 dps range, 256 * 8.75/1000 -- to the gyro
offset operation, not the raw averages the claim states. -/
theorem calibrate_gyro_scaled_not_raw :
    (L3G4200D.read streamBus ⟨calibStream, 0, []⟩ true).map Prod.fst
      = some ((256 : ℚ), (256 : ℚ), (256 : ℚ))
    ∧ (AHRS.calibrate streamBus ⟨calibStream, 0, []⟩ 1).map (fun r => r.1.2)
      = some ((56 / 25 : ℚ), (56 / 25 : ℚ), (56 / 25 : ℚ))
    ∧ ((56 / 25 : ℚ), (56 / 25 : ℚ), (56 / 25 : ℚ)) ≠ ((256 : ℚ), (256 : ℚ), (256 : ℚ)) := by
  have hraw0 : rawPairAt calibStream 0 = 256 := by decide
  have hraw2 : rawPairAt calibStream 2 = 256 := by decide
  have hraw4 : rawPairAt calibStream 4 = 256 := by decide
  refine ⟨?_, ?_, by norm_num [Prod.ext_iff]⟩
  · rw [L3G_read_raw]
    norm_num [hraw0, hraw2, hraw4]
  · have hb : ∀ i, calibStream i < 256 := by
      intro i
      rcases Nat.lt_or_ge i 14 with h | h
      · interval_cases i <;> decide
      · rw [calibStream, List.getD_eq_default _ _ (by simpa using h)]
        norm_num
    have hsc : gyroScaleAt calibStream 0 = some (7 / 800) := by
      norm_num [gyroScaleAt, tableGetInv, tableGet, L3G4200D.DATA_RANGES,
        L3G4200D.SCALE_FACTORS, show calibStream 6 = 0 from rfl]
    have hloop := calibrateLoop_spec calibStream 1 0 (0, 0, 0) (0, 0, 0) []
      (by
        intro i hi
        interval_cases i
        simp [hsc])
    simp only [Nat.zero_add] at hloop
    unfold AHRS.calibrate
    rw [if_neg (by omega : ¬ (1 : ℕ) = 0), hloop]
    have hgs : gyroScaledAt calibStream 0 = (56 / 25, 56 / 25, 56 / 25) := by
      rw [gyroScaledAt_eq calibStream 0 (7 / 800) hsc]
      norm_num [hraw0, hraw2, hraw4]
    have ha7 : rawPairAt calibStream 7 = 0 := by decide
    have ha9 : rawPairAt calibStream 9 = 0 := by decide
    have ha11 : rawPairAt calibStream 11 = 0 := by decide
    norm_num [Finset.sum_range_one, hgs, accelRawAt, ha7, ha9, ha11]
    have hso := set_offset_stream_isSome calibStream 13 [] 0 0 (-256)
      (by decide) (by norm_num) (by norm_num) (by norm_num)
    obtain ⟨s2, hs2⟩ := Option.isSome_iff_exists.mp hso
    rw [hs2]
    simp [L3G4200D.set_offset]

/-- C5: the first `calculate` call on a fresh AHRS (no previous gyro
timestamp) seeds the integrated state with the accelerometer attitude,
pitch = degrees(atan2(-x, z)) and roll = degrees(atan2(y, sqrt(x^2+z^2)))
from the raw accelerometer axes, records the timestamp (transition to
Tracking) and returns (accel_pitch, accel_roll, 360) with heading fixed at
360, independent of the filter constant k and of the gyro rates read. -/
theorem calculate_first_call_seeds (k : ℝ) (st : AHRSState)
    (ax ay az gx gy gz now : ℝ) (h : st.last_read_time = none) :
    AHRS.calculate k st ax ay az gx gy gz now =
      (⟨some now, accel_pitch ax az, accel_roll ax ay az⟩,
       (accel_pitch ax az, accel_roll ax ay az, 360)) :=
  calculate_none_step k st ax ay az gx gy gz now h

/-- Witness for C5 at a concrete fresh state and concrete readings. -/
theorem calculate_first_call_seeds_witness :
    (⟨none, 5, 7⟩ : AHRSState).last_read_time = none
    ∧ AHRS.calculate 2 ⟨none, 5, 7⟩ 1 2 3 4 5 6 9 =
      (⟨some 9, accel_pitch 1 3, accel_roll 1 2 3⟩,
       (accel_pitch 1 3, accel_roll 1 2 3, 360)) :=
  ⟨rfl, calculate_first_call_seeds 2 ⟨none, 5, 7⟩ 1 2 3 4 5 6 9 rfl⟩

/-- C4: in the Tracking state (a previous timestamp t exists), `calculate`
updates int_pitch to k*(int_pitch + gx*dt) + (1-k)*accel_roll and int_roll
to k*(int_roll + gy*dt) + (1-k)*accel_roll with dt = now - t -- both blend
with accel_roll -- records the new timestamp, and returns the two updated
values with heading 360. -/
theorem calculate_tracking_update (k : ℝ) (st : AHRSState)
    (ax ay az gx gy gz now t : ℝ) (h : st.last_read_time = some t) :
    AHRS.calculate k st ax ay az gx gy gz now =
      (⟨some now,
        k * (st.int_pitch + gx * (now - t)) + (1 - k) * accel_roll ax ay az,
        k * (st.int_roll + gy * (now - t)) + (1 - k) * accel_roll ax ay az⟩,
       (k * (st.int_pitch + gx * (now - t)) + (1 - k) * accel_roll ax ay az,
        k * (st.int_roll + gy * (now - t)) + (1 - k) * accel_roll ax ay az, 360)) :=
  calculate_some_step k st ax ay az gx gy gz now t h

/-- Witness for C4 at the spec's numeric example: k = 1, state seeded at
zero with timestamp 0, gyro rates (1000, -2000, 3000) dps, dt = 0.01 s;
`calculate` returns pitch = +10 and roll = -20. -/
theorem calculate_tracking_update_witness :
    (⟨some 0, 0, 0⟩ : AHRSState).last_read_time = some 0
    ∧ AHRS.calculate 1 ⟨some 0, 0, 0⟩ 0 0 0 1000 (-2000) 3000 (1 / 100) =
      (⟨some (1 / 100), 10, -20⟩, (10, -20, 360)) := by
  refine ⟨rfl, ?_⟩
  rw [calculate_tracking_update 1 ⟨some 0, 0, 0⟩ 0 0 0 1000 (-2000) 3000 (1 / 100) 0 rfl]
  norm_num

/-- C6: with 0 ≤ k < 1, iterating `calculate` with a constant accelerometer
reading and zero gyro rates drives both integrated estimates to the
accelerometer tilt value accel_roll (the one both filter lines blend with):
after n cycles the error from that limit is exactly k^n times the initial
error, and both estimates tend to accel_roll. -/
theorem filter_convergence (k ax ay az : ℝ) (times : ℕ → ℝ) (st : AHRSState)
    (t : ℝ) (h : st.last_read_time = some t) (hk0 : 0 ≤ k) (hk1 : k < 1) :
    (∀ n : ℕ,
      (AHRS.iterate_zero_gyro k ax ay az times st n).int_pitch - accel_roll ax ay az
        = k ^ n * (st.int_pitch - accel_roll ax ay az)
      ∧ (AHRS.iterate_zero_gyro k ax ay az times st n).int_roll - accel_roll ax ay az
        = k ^ n * (st.int_roll - accel_roll ax ay az))
    ∧ Filter.Tendsto (fun n => (AHRS.iterate_zero_gyro k ax ay az times st n).int_pitch)
        Filter.atTop (nhds (accel_roll ax ay az))
    ∧ Filter.Tendsto (fun n => (AHRS.iterate_zero_gyro k ax ay az times st n).int_roll)
        Filter.atTop (nhds (accel_roll ax ay az)) := by
  have hs := fun n => iterate_zero_gyro_spec k ax ay az times st t h n
  have hk : Filter.Tendsto (fun n : ℕ => k ^ n) Filter.atTop (nhds 0) :=
    tendsto_pow_atTop_nhds_zero_of_lt_one hk0 hk1
  refine ⟨fun n => ⟨(hs n).2.1, (hs n).2.2⟩, ?_, ?_⟩
  · have hl : Filter.Tendsto
        (fun n : ℕ => accel_roll ax ay az + k ^ n * (st.int_pitch - accel_roll ax ay az))
        Filter.atTop (nhds (accel_roll ax ay az + 0 * (st.int_pitch - accel_roll ax ay az))) :=
      Filter.Tendsto.add tendsto_const_nhds (hk.mul_const _)
    rw [zero_mul, add_zero] at hl
    exact hl.congr (fun n => by linarith [(hs n).2.1])
  · have hl : Filter.Tendsto
        (fun n : ℕ => accel_roll ax ay az + k ^ n * (st.int_roll - accel_roll ax ay az))
        Filter.atTop (nhds (accel_roll ax ay az + 0 * (st.int_roll - accel_roll ax ay az))) :=
      Filter.Tendsto.add tendsto_const_nhds (hk.mul_const _)
    rw [zero_mul, add_zero] at hl
    exact hl.congr (fun n => by linarith [(hs n).2.2])

/-- Witness for C6 at k = 1/2 on a concrete Tracking state. -/
theorem filter_convergence_witness :
    (⟨some 0, 1, 1⟩ : AHRSState).last_read_time = some 0
    ∧ (0 : ℝ) ≤ 1 / 2 ∧ (1 / 2 : ℝ) < 1
    ∧ ((∀ n : ℕ,
        (AHRS.iterate_zero_gyro (1 / 2) 0 0 0 (fun _ => 0) ⟨some 0, 1, 1⟩ n).int_pitch
            - accel_roll 0 0 0
          = (1 / 2 : ℝ) ^ n * ((1 : ℝ) - accel_roll 0 0 0)
        ∧ (AHRS.iterate_zero_gyro (1 / 2) 0 0 0 (fun _ => 0) ⟨some 0, 1, 1⟩ n).int_roll
            - accel_roll 0 0 0
          = (1 / 2 : ℝ) ^ n * ((1 : ℝ) - accel_roll 0 0 0))
      ∧ Filter.Tendsto
          (fun n => (AHRS.iterate_zero_gyro (1 / 2) 0 0 0 (fun _ => 0) ⟨some 0, 1, 1⟩ n).int_pitch)
          Filter.atTop (nhds (accel_roll 0 0 0))
      ∧ Filter.Tendsto
          (fun n => (AHRS.iterate_zero_gyro (1 / 2) 0 0 0 (fun _ => 0) ⟨some 0, 1, 1⟩ n).int_roll)
          Filter.atTop (nhds (accel_roll 0 0 0))) :=
  ⟨rfl, by norm_num, by norm_num,
    filter_convergence (1 / 2) 0 0 0 (fun _ => 0) ⟨some 0, 1, 1⟩ 0 rfl
      (by norm_num) (by norm_num)⟩

end QuadPi
